import Mathlib

/-!
Shallow embedding of the pricing / deal-classification engine of the
FrugalPriceBookApp single-page application (source: `src/PriceBookApp.jsx`,
bundled as `src/index.js`).

Numbers are modelled as exact rationals (`ℚ`).  JavaScript's `toFixed(d)`
followed by `parseFloat` is modelled as exact decimal rounding to `d`
fractional digits; per the ECMAScript definition of `toFixed`, the integer
chosen is the one closest to the scaled value, ties picking the larger
integer, i.e. `⌊x * 10^d + 1/2⌋ / 10^d` — which agrees with
round-half-away-from-zero on non-negative inputs (the only inputs that reach
rounding in this code).

The submission path additionally needs JavaScript `NaN` semantics (a parsed
empty or non-numeric form field), so it works over `JsNum`, a rational
extended with a `nan` element whose comparisons are all false.

Record `id` and `timestamp` fields are opaque external inputs
(`Date.now()` / server timestamps) and are not part of the embedded state;
the record collection is taken as the ordered list the store adapter
delivers (ordered by timestamp descending).
-/

namespace PriceBook

/-- The five deal-quality verdicts rendered by `renderDealStatus`. -/
inductive DealStatus where
  | NoTarget
  | NewRockBottom
  | GoodDeal
  | CloseDeal
  | BadDeal
deriving DecidableEq, Repr

/-- A purchase record as consumed by the price engine (numeric fields already
coerced to numbers by the load path, cf. `Number(doc.data().price)` etc.). -/
structure PurchaseRecord where
  name : String
  price : ℚ
  quantity : ℚ
  unit : String
  store : String
  rockBottomPrice : ℚ
  unitPrice : ℚ
deriving DecidableEq, Repr

/-- Exact model of `parseFloat(x.toFixed(5))` for a rational `x`:
round to 5 fractional digits, ties to the larger integer. -/
def round5 (q : ℚ) : ℚ :=
  (Int.floor (q * 100000 + 1 / 2) : ℚ) / 100000

/-- Exact model of `parseFloat(x.toFixed(4))` for a rational `x`:
round to 4 fractional digits, ties to the larger integer. -/
def round4 (q : ℚ) : ℚ :=
  (Int.floor (q * 10000 + 1 / 2) : ℚ) / 10000

/-- Source `calculateUnitPrice` (lines 178-182), numeric case:
`if (price <= 0 || quantity <= 0) return 0;
 return parseFloat((price / quantity).toFixed(5));` -/
def calculateUnitPrice (price quantity : ℚ) : ℚ :=
  if price ≤ 0 ∨ quantity ≤ 0 then 0 else round5 (price / quantity)

/-- Source `historicalLowPrice` (lines 142-153): `0` for an empty selection,
otherwise `reduce(Math.min, Infinity)` over the unit prices of the records
whose name equals the selection, with the `Infinity` sentinel mapped back
to `0`.  `Infinity` is modelled by `⊤` in `WithTop ℚ`. -/
def historicalLowPrice (items : List PurchaseRecord) (selectedItem : String) : ℚ :=
  if selectedItem = "" then 0
  else
    let relevantItems := items.filter (fun item => item.name == selectedItem)
    if relevantItems.isEmpty then 0
    else
      let lowestPrice : WithTop ℚ :=
        relevantItems.foldl (fun mn item => min mn (item.unitPrice : WithTop ℚ)) ⊤
      lowestPrice.untop' 0

/-- Source `renderDealStatus` (lines 270-291), restricted to the verdict it
renders; `1.1` is the exact decimal `11/10`. -/
def renderDealStatus (historicalLow : ℚ) (item : PurchaseRecord) : DealStatus :=
  if item.rockBottomPrice = 0 then DealStatus.NoTarget
  else if item.unitPrice ≤ historicalLow ∨
      (historicalLow = 0 ∧ item.unitPrice = item.rockBottomPrice) then
    DealStatus.NewRockBottom
  else if item.unitPrice ≤ item.rockBottomPrice then DealStatus.GoodDeal
  else if item.rockBottomPrice < item.unitPrice ∧
      item.unitPrice ≤ item.rockBottomPrice * (11 / 10) then
    DealStatus.CloseDeal
  else DealStatus.BadDeal

/-- The status shown for a history-table row (source lines 489-502): each
row is classified against the historical low of the currently selected
item, not against the low of the row's own item name. -/
def displayedDealStatus (items : List PurchaseRecord) (selectedItem : String)
    (item : PurchaseRecord) : DealStatus :=
  renderDealStatus (historicalLowPrice items selectedItem) item

/-- The rock-bottom derivation of `handleSubmit` (source lines 222-228) on
numeric inputs, under the spec's name `deriveRockBottomForSubmission`:
the stated target is the already-defaulted `parseFloat(...) || 0` value. -/
def deriveRockBottomForSubmission (statedTarget historicalLow computedUnitPrice : ℚ) : ℚ :=
  if 0 < historicalLow then min (min statedTarget historicalLow) computedUnitPrice
  else if statedTarget = 0 then computedUnitPrice
  else statedTarget

/-- Source `handleItemSelect` (lines 156-175), reduced to the data it
derives: for a non-empty selection whose name `find`s a record, the pair of
the unit default (`lastEntry.unit || 'oz'`) and the suggested target field
(`historicalLowPrice > 0 ? historicalLowPrice.toFixed(4)
 : (lastEntry.rockBottomPrice ? lastEntry.rockBottomPrice.toFixed(4) : '')`),
where the empty-string field is `none`.  An empty selection resets the form
and a failed `find` leaves it untouched; both yield no defaults (`none`). -/
def selectItemDefaults (items : List PurchaseRecord) (name : String)
    (historicalLow : ℚ) : Option (String × Option ℚ) :=
  if name = "" then none
  else
    match items.find? (fun item => item.name == name) with
    | none => none
    | some lastEntry =>
      some (if lastEntry.unit = "" then "oz" else lastEntry.unit,
        if 0 < historicalLow then some (round4 historicalLow)
        else if lastEntry.rockBottomPrice = 0 then none
        else some (round4 lastEntry.rockBottomPrice))

/-- A JavaScript number as it appears on the submission path: either an
actual (rational) number or `NaN`, the result of `parseFloat` on an empty
or non-numeric field. -/
inductive JsNum where
  | num (q : ℚ)
  | nan
deriving DecidableEq, Repr

/-- JavaScript `x <= y`: false whenever either operand is `NaN`. -/
def JsNum.leb : JsNum → JsNum → Bool
  | JsNum.num a, JsNum.num b => decide (a ≤ b)
  | _, _ => false

/-- JavaScript `parseFloat(s) || 0` (source line 213): `NaN` (and `0`
itself) collapse to `0`; any other number passes through. -/
def jsOrZero : JsNum → ℚ
  | JsNum.num q => q
  | JsNum.nan => 0

/-- JavaScript `String.prototype.trim`: strip whitespace from both ends
(modelled executably; `String.trim` agrees on these inputs). -/
def jsTrim (s : String) : String :=
  String.mk (((s.data.dropWhile Char.isWhitespace).reverse.dropWhile
    Char.isWhitespace).reverse)

/-- Source `calculateUnitPrice` (lines 178-182) with JavaScript `NaN`
semantics.  In the unguarded branch a numeric `quantity` is strictly
positive (the guard rejected `quantity <= 0`), so the JavaScript division
cannot produce an infinity there; a `NaN` operand propagates through the
division, `toFixed` (which yields `"NaN"`) and `parseFloat`. -/
def calculateUnitPriceJs (price quantity : JsNum) : JsNum :=
  if price.leb (JsNum.num 0) || quantity.leb (JsNum.num 0) then JsNum.num 0
  else
    match price, quantity with
    | JsNum.num a, JsNum.num b => JsNum.num (round5 (a / b))
    | _, _ => JsNum.nan

/-- Source `currentUnitPrice` (lines 194-198): the live form preview,
`calculateUnitPrice(parseFloat(form.price), parseFloat(form.quantity))`,
taking the two parsed fields as inputs. -/
def currentUnitPrice (priceField quantityField : JsNum) : JsNum :=
  calculateUnitPriceJs priceField quantityField

/-- The form state at submission time, with the numeric fields already
passed through `parseFloat` (an external builtin): an empty or non-numeric
field is `JsNum.nan`. -/
structure SubmittedForm where
  name : String
  price : JsNum
  quantity : JsNum
  unit : String
  rockBottomPrice : JsNum
  store : String
deriving DecidableEq, Repr

/-- The record object built by `handleSubmit` (source lines 230-240), minus
the external `id` and `timestamp` fields. -/
structure SubmittedRecord where
  name : String
  price : JsNum
  quantity : JsNum
  unit : String
  store : String
  rockBottomPrice : JsNum
  unitPrice : JsNum
deriving DecidableEq, Repr

/-- Outcome of a submission: the validation alert (no record is built or
persisted), or the record handed to `append`. -/
inductive SubmitResult where
  | validationError
  | appended (record : SubmittedRecord)
deriving DecidableEq, Repr

/-- JavaScript `Math.min(a, b, c)` where `a` and `b` are known numbers and
`c` may be `NaN` (in which case the result is `NaN`). -/
def jsMin3 (a b : ℚ) (c : JsNum) : JsNum :=
  match c with
  | JsNum.num q => JsNum.num (min (min a b) q)
  | JsNum.nan => JsNum.nan

/-- Source `handleSubmit` (lines 202-267), reduced to its decision logic:
validation `if (!form.name || priceNum <= 0 || quantityNum <= 0)` aborts
with the alert; otherwise the unit price is computed, the rock-bottom
target is derived (source lines 222-228) and the new record is appended.
Note that the validation tests the untrimmed `form.name` while the record
stores `form.name.trim()`. -/
def handleSubmit (form : SubmittedForm) (historicalLow : ℚ) : SubmitResult :=
  let priceNum := form.price
  let quantityNum := form.quantity
  let rockBottomNum := jsOrZero form.rockBottomPrice
  if form.name == "" || priceNum.leb (JsNum.num 0) || quantityNum.leb (JsNum.num 0) then
    SubmitResult.validationError
  else
    let unitPriceCalculated := calculateUnitPriceJs priceNum quantityNum
    let rockBottomFinal : JsNum :=
      if 0 < historicalLow then jsMin3 rockBottomNum historicalLow unitPriceCalculated
      else if rockBottomNum = 0 then unitPriceCalculated
      else JsNum.num rockBottomNum
    SubmitResult.appended
      { name := jsTrim form.name
        price := priceNum
        quantity := quantityNum
        unit := form.unit
        store := if jsTrim form.store = "" then "Unknown" else jsTrim form.store
        rockBottomPrice := rockBottomFinal
        unitPrice := unitPriceCalculated }

/-! Claim-side definitions: rule sets transcribed from the specification's
words, for comparison with the embedded source functions. -/

/-- Rules of C1 exactly as the claim states them: the `NewRockBottom` test
reads `record.unitPrice <= historicalLow` with the qualifier
`(with historicalLow > 0)`. -/
def claimClassifyDeal (historicalLow : ℚ) (item : PurchaseRecord) : DealStatus :=
  if item.rockBottomPrice = 0 then DealStatus.NoTarget
  else if (0 < historicalLow ∧ item.unitPrice ≤ historicalLow) ∨
      (historicalLow = 0 ∧ item.unitPrice = item.rockBottomPrice) then
    DealStatus.NewRockBottom
  else if item.unitPrice ≤ item.rockBottomPrice then DealStatus.GoodDeal
  else if item.rockBottomPrice < item.unitPrice ∧
      item.unitPrice ≤ item.rockBottomPrice * (11 / 10) then
    DealStatus.CloseDeal
  else DealStatus.BadDeal

/-- Rules of C1 amended to match the code: the first `NewRockBottom`
disjunct is `record.unitPrice <= historicalLow` with no positivity
qualifier on `historicalLow`; everything else is unchanged. -/
def amendedClassifyDeal (historicalLow : ℚ) (item : PurchaseRecord) : DealStatus :=
  if item.rockBottomPrice = 0 then DealStatus.NoTarget
  else if item.unitPrice ≤ historicalLow ∨
      (historicalLow = 0 ∧ item.unitPrice = item.rockBottomPrice) then
    DealStatus.NewRockBottom
  else if item.unitPrice ≤ item.rockBottomPrice then DealStatus.GoodDeal
  else if item.rockBottomPrice < item.unitPrice ∧
      item.unitPrice ≤ item.rockBottomPrice * (11 / 10) then
    DealStatus.CloseDeal
  else DealStatus.BadDeal

/-- Rules of C6 exactly as the claim states them: the first matching record
supplies its `unit` verbatim, and the suggested target is always present —
`historicalLow` when positive, otherwise that record's `rockBottomPrice`,
rounded to 4 digits. -/
def claimSelectItemDefaults (items : List PurchaseRecord) (name : String)
    (historicalLow : ℚ) : Option (String × Option ℚ) :=
  match items.find? (fun item => item.name == name) with
  | none => none
  | some r =>
    some (r.unit,
      some (round4 (if 0 < historicalLow then historicalLow else r.rockBottomPrice)))

/-! Helper lemmas. -/

/-- Evaluate `round5` once the enclosing integer is known. -/
theorem round5_eval (q : ℚ) (z : ℤ) (h1 : (z : ℚ) ≤ q * 100000 + 1 / 2)
    (h2 : q * 100000 + 1 / 2 < z + 1) : round5 q = z / 100000 := by
  unfold round5
  rw [show Int.floor (q * 100000 + 1 / 2) = z from Int.floor_eq_iff.mpr ⟨h1, h2⟩]

/-- Evaluate `round4` once the enclosing integer is known. -/
theorem round4_eval (q : ℚ) (z : ℤ) (h1 : (z : ℚ) ≤ q * 10000 + 1 / 2)
    (h2 : q * 10000 + 1 / 2 < z + 1) : round4 q = z / 10000 := by
  unfold round4
  rw [show Int.floor (q * 10000 + 1 / 2) = z from Int.floor_eq_iff.mpr ⟨h1, h2⟩]

/-! Theorems for the claims. -/

/-- C1 (counterexample): at `historicalLow = 0`, a record with
`unitPrice = 0` (a tiny purchase whose unit price rounds to zero) and a
nonzero target is classified `NewRockBottom` by the code — the unqualified
test `0 <= 0` fires — while the claim's qualified rules classify it
`GoodDeal`. -/
theorem renderDealStatus_claim_rules_counterexample :
    renderDealStatus 0 ⟨"Beans", 1 / 1000000, 1, "oz", "Unknown", 1 / 10, 0⟩ =
      DealStatus.NewRockBottom ∧
    claimClassifyDeal 0 ⟨"Beans", 1 / 1000000, 1, "oz", "Unknown", 1 / 10, 0⟩ =
      DealStatus.GoodDeal := by
  constructor
  · simp [renderDealStatus]
  · simp [claimClassifyDeal]

/-- C1 (amended): `renderDealStatus` evaluates the five rules in priority
order with first match winning, where the `NewRockBottom` rule is
`unitPrice <= historicalLow` (with no positivity qualifier) or
`historicalLow == 0 and unitPrice == rockBottomPrice`; in particular a
record with `unitPrice == historicalLow == rockBottomPrice` (all positive)
is `NewRockBottom`, never `GoodDeal`. -/
theorem renderDealStatus_follows_amended_rules (h : ℚ) (item : PurchaseRecord) :
    renderDealStatus h item = amendedClassifyDeal h item ∧
    (0 < item.unitPrice → item.unitPrice = h →
      item.unitPrice = item.rockBottomPrice →
      renderDealStatus h item = DealStatus.NewRockBottom) := by
  refine ⟨rfl, fun hu hh hrb => ?_⟩
  have hrbpos : (0 : ℚ) < item.rockBottomPrice := hrb ▸ hu
  unfold renderDealStatus
  rw [if_neg hrbpos.ne', if_pos (Or.inl (le_of_eq hh))]

/-- Witness for C1: a concrete record tying its own positive target and the
historical low is reported as the rock bottom. -/
theorem renderDealStatus_follows_amended_rules_witness :
    renderDealStatus 2 ⟨"Rice", 2, 1, "oz", "Unknown", 2, 2⟩ =
      DealStatus.NewRockBottom :=
  (renderDealStatus_follows_amended_rules 2 _).2 (by norm_num) rfl rfl

/-- C2: the persisted rock-bottom value is `min(statedTarget,
historicalLow, computedUnitPrice)` when `historicalLow > 0` (hence at most
the historical low and at most the just-paid unit price), the computed
unit price when there is no history and no stated target, and the stated
target unchanged otherwise. -/
theorem deriveRockBottomForSubmission_cases (t h u : ℚ) :
    (0 < h → deriveRockBottomForSubmission t h u = min (min t h) u ∧
      deriveRockBottomForSubmission t h u ≤ h ∧
      deriveRockBottomForSubmission t h u ≤ u) ∧
    (¬ 0 < h → t = 0 → deriveRockBottomForSubmission t h u = u) ∧
    (¬ 0 < h → t ≠ 0 → deriveRockBottomForSubmission t h u = t) := by
  refine ⟨fun hh => ?_, fun hh ht => ?_, fun hh ht => ?_⟩
  · unfold deriveRockBottomForSubmission
    rw [if_pos hh]
    exact ⟨rfl, le_trans (min_le_left _ _) (min_le_right _ _), min_le_right _ _⟩
  · unfold deriveRockBottomForSubmission
    rw [if_neg hh, if_pos ht]
  · unfold deriveRockBottomForSubmission
    rw [if_neg hh, if_neg ht]

/-- Witness for C2: with a positive history the persisted target is capped
by the historical low, and with no history a stated target passes through. -/
theorem deriveRockBottomForSubmission_cases_witness :
    deriveRockBottomForSubmission 5 2 3 ≤ 2 ∧
      deriveRockBottomForSubmission 4 0 3 = 4 :=
  ⟨((deriveRockBottomForSubmission_cases 5 2 3).1 (by norm_num)).2.1,
   (deriveRockBottomForSubmission_cases 4 0 3).2.2 (by norm_num) (by norm_num)⟩

/-- C3 (counterexample): strict positivity fails — both inputs positive,
yet the rounded unit price is `0`: `1 / 1000000 = 0.000001` rounds to five
digits as `0.00000`. -/
theorem calculateUnitPrice_positive_counterexample :
    (0 : ℚ) < 1 ∧ (0 : ℚ) < 1000000 ∧ calculateUnitPrice 1 1000000 = 0 := by
  refine ⟨by norm_num, by norm_num, ?_⟩
  unfold calculateUnitPrice
  rw [if_neg (by norm_num)]
  rw [round5_eval _ 0 (by norm_num) (by norm_num)]
  norm_num

/-- C3 (amended): non-positive inputs yield `0` (silent-zero policy);
positive inputs yield `round5(price / quantity)`, which is non-negative and
strictly positive whenever the quotient is at least half of `10 ^ (-5)`
(quotients below `1 / 200000` round to `0`). -/
theorem calculateUnitPrice_spec_amended (price quantity : ℚ) :
    (price ≤ 0 ∨ quantity ≤ 0 → calculateUnitPrice price quantity = 0) ∧
    (0 < price → 0 < quantity →
      calculateUnitPrice price quantity = round5 (price / quantity) ∧
      0 ≤ calculateUnitPrice price quantity ∧
      (1 / 200000 ≤ price / quantity →
        0 < calculateUnitPrice price quantity)) := by
  constructor
  · intro hor
    unfold calculateUnitPrice
    rw [if_pos hor]
  · intro hp hq
    have hguard : ¬ (price ≤ 0 ∨ quantity ≤ 0) := by
      push_neg
      exact ⟨hp, hq⟩
    have hx : (0 : ℚ) ≤ price / quantity := le_of_lt (div_pos hp hq)
    unfold calculateUnitPrice
    rw [if_neg hguard]
    refine ⟨rfl, ?_, ?_⟩
    · unfold round5
      apply div_nonneg _ (by norm_num)
      have : (0 : ℤ) ≤ Int.floor (price / quantity * 100000 + 1 / 2) :=
        Int.floor_nonneg.mpr (by positivity)
      exact_mod_cast this
    · intro hhalf
      unfold round5
      have h1 : (1 : ℚ) ≤ price / quantity * 100000 + 1 / 2 := by
        have := mul_le_mul_of_nonneg_right hhalf
          (by norm_num : (0 : ℚ) ≤ 100000)
        rw [show (1 : ℚ) / 200000 * 100000 = 1 / 2 by norm_num] at this
        linarith
      have h2 : (1 : ℤ) ≤ Int.floor (price / quantity * 100000 + 1 / 2) :=
        Int.le_floor.mpr (by exact_mod_cast h1)
      have h3 : (1 : ℚ) ≤ (Int.floor (price / quantity * 100000 + 1 / 2) : ℚ) := by
        exact_mod_cast h2
      apply div_pos (by linarith) (by norm_num)

/-- Witness for C3: a routine positive pair evaluates to the rounding of
its quotient and is strictly positive. -/
theorem calculateUnitPrice_spec_amended_witness :
    calculateUnitPrice 1 2 = round5 (1 / 2) ∧ 0 < calculateUnitPrice 1 2 :=
  ⟨((calculateUnitPrice_spec_amended 1 2).2 (by norm_num) (by norm_num)).1,
   ((calculateUnitPrice_spec_amended 1 2).2 (by norm_num) (by norm_num)).2.2
     (by norm_num)⟩

/-- C10: the silent-zero guard does not catch `NaN` — `NaN <= 0` is false
in JavaScript — so the unit-price computation, and with it the live
form preview `currentUnitPrice`, returns `NaN` when a parsed field is
`NaN` and the other is `NaN` or positive, rather than `0`. -/
theorem calculateUnitPriceJs_nan_policy (q : ℚ) :
    JsNum.leb JsNum.nan (JsNum.num 0) = false ∧
    currentUnitPrice JsNum.nan JsNum.nan = JsNum.nan ∧
    (0 < q →
      currentUnitPrice JsNum.nan (JsNum.num q) = JsNum.nan ∧
      currentUnitPrice (JsNum.num q) JsNum.nan = JsNum.nan) := by
  refine ⟨rfl, rfl, fun hq => ?_⟩
  have hdq : decide (q ≤ 0) = false := decide_eq_false (not_le.mpr hq)
  constructor <;>
    simp [currentUnitPrice, calculateUnitPriceJs, JsNum.leb, hdq]

/-- Witness for C10: an empty price field against a concrete positive
quantity previews as `NaN`. -/
theorem calculateUnitPriceJs_nan_policy_witness :
    currentUnitPrice JsNum.nan (JsNum.num (5 / 2)) = JsNum.nan :=
  ((calculateUnitPriceJs_nan_policy (5 / 2)).2.2 (by norm_num)).1

/-- The running minimum never exceeds its accumulator. -/
theorem foldlMin_le_init (l : List PurchaseRecord) (a : WithTop ℚ) :
    l.foldl (fun mn item => min mn (item.unitPrice : WithTop ℚ)) a ≤ a := by
  induction l generalizing a with
  | nil => exact le_refl a
  | cons x xs ih =>
    rw [List.foldl_cons]
    exact le_trans (ih _) (min_le_left _ _)

/-- The running minimum is a lower bound of every traversed unit price. -/
theorem foldlMin_le_mem (l : List PurchaseRecord) :
    ∀ (a : WithTop ℚ) (r : PurchaseRecord), r ∈ l →
      l.foldl (fun mn item => min mn (item.unitPrice : WithTop ℚ)) a ≤
        (r.unitPrice : WithTop ℚ) := by
  induction l with
  | nil =>
    intro a r hr
    cases hr
  | cons x xs ih =>
    intro a r hr
    rw [List.foldl_cons]
    rcases List.mem_cons.mp hr with h | h
    · subst h
      exact le_trans (foldlMin_le_init xs _) (min_le_right _ _)
    · exact ih _ r h

/-- The running minimum is the accumulator or one of the unit prices. -/
theorem foldlMin_eq_init_or_mem (l : List PurchaseRecord) :
    ∀ a : WithTop ℚ,
      l.foldl (fun mn item => min mn (item.unitPrice : WithTop ℚ)) a = a ∨
      ∃ r ∈ l,
        l.foldl (fun mn item => min mn (item.unitPrice : WithTop ℚ)) a =
          (r.unitPrice : WithTop ℚ) := by
  induction l with
  | nil =>
    intro a
    exact Or.inl rfl
  | cons x xs ih =>
    intro a
    rw [List.foldl_cons]
    rcases ih (min a (x.unitPrice : WithTop ℚ)) with h | ⟨r, hr, h⟩
    · rcases min_cases a (x.unitPrice : WithTop ℚ) with ⟨hmin, _⟩ | ⟨hmin, _⟩
      · exact Or.inl (by rw [h, hmin])
      · exact Or.inr ⟨x, List.mem_cons_self x xs, by rw [h, hmin]⟩
    · exact Or.inr ⟨r, List.mem_cons_of_mem _ hr, h⟩

/-- Unfolding of `historicalLowPrice` in the populated case. -/
theorem historicalLowPrice_eq_fold (items : List PurchaseRecord) (n : String)
    (hn : n ≠ "") (hne : items.filter (fun item => item.name == n) ≠ []) :
    historicalLowPrice items n =
      ((items.filter (fun item => item.name == n)).foldl
        (fun mn item => min mn (item.unitPrice : WithTop ℚ)) ⊤).untop' 0 := by
  have hisEmpty : (items.filter (fun item => item.name == n)).isEmpty = false := by
    cases hfe : items.filter (fun item => item.name == n) with
    | nil => exact absurd hfe hne
    | cons a as => rfl
  simp only [historicalLowPrice, if_neg hn, hisEmpty]
  rfl

/-- C4: an empty name or an unmatched name yields the `0` sentinel;
otherwise the result is attained by a matching record and bounds every
matching record's unit price from below — it is the minimum matching unit
price. -/
theorem historicalLowPrice_spec (items : List PurchaseRecord) (n : String) :
    (n = "" → historicalLowPrice items n = 0) ∧
    ((∀ r ∈ items, r.name ≠ n) → historicalLowPrice items n = 0) ∧
    ((∃ r ∈ items, r.name = n) → n ≠ "" →
      (∃ r ∈ items, r.name = n ∧ historicalLowPrice items n = r.unitPrice) ∧
      ∀ r ∈ items, r.name = n → historicalLowPrice items n ≤ r.unitPrice) := by
  refine ⟨fun hn => ?_, fun hnone => ?_, fun hex hn => ?_⟩
  · simp [historicalLowPrice, hn]
  · by_cases hn : n = ""
    · simp [historicalLowPrice, hn]
    · have hfil : items.filter (fun item => item.name == n) = [] := by
        rw [List.filter_eq_nil_iff]
        intro a ha
        simpa using hnone a ha
      simp [historicalLowPrice, hn, hfil]
  · obtain ⟨r0, hr0mem, hr0name⟩ := hex
    have hr0l : r0 ∈ items.filter (fun item => item.name == n) :=
      List.mem_filter.mpr ⟨hr0mem, by simp [hr0name]⟩
    have hlne : items.filter (fun item => item.name == n) ≠ [] := by
      intro h
      rw [h] at hr0l
      cases hr0l
    have hunfold := historicalLowPrice_eq_fold items n hn hlne
    rcases foldlMin_eq_init_or_mem (items.filter (fun item => item.name == n)) ⊤
      with htop | ⟨r, hrl, heq⟩
    · exact absurd (htop ▸ foldlMin_le_mem _ ⊤ r0 hr0l) (WithTop.not_top_le_coe _)
    · have hrmem := List.mem_filter.mp hrl
      have hrname : r.name = n := by simpa using hrmem.2
      have hval : historicalLowPrice items n = r.unitPrice := by
        rw [hunfold, heq, WithTop.untop'_coe]
      refine ⟨⟨r, hrmem.1, hrname, hval⟩, fun rr hrrmem hrrname => ?_⟩
      have hrrl : rr ∈ items.filter (fun item => item.name == n) :=
        List.mem_filter.mpr ⟨hrrmem, by simp [hrrname]⟩
      have hle := foldlMin_le_mem (items.filter (fun item => item.name == n)) ⊤ rr hrrl
      rw [heq] at hle
      rw [hval]
      exact WithTop.coe_le_coe.mp hle

/-- Witness for C4: with its name present, the historical low is bounded by
the matching record's unit price. -/
theorem historicalLowPrice_spec_witness :
    historicalLowPrice [⟨"Rice", 2, 1, "oz", "Unknown", 2, 2⟩] "Rice" ≤ 2 := by
  have H := (historicalLowPrice_spec [⟨"Rice", 2, 1, "oz", "Unknown", 2, 2⟩]
    "Rice").2.2 ⟨⟨"Rice", 2, 1, "oz", "Unknown", 2, 2⟩, by simp, rfl⟩ (by decide)
  exact H.2 ⟨"Rice", 2, 1, "oz", "Unknown", 2, 2⟩ (by simp) rfl

/-- C8: the historical low is invariant under permutation of the record
collection — it is a pure minimum over the filtered set. -/
theorem historicalLowPrice_perm_invariant (items itemsB : List PurchaseRecord)
    (n : String) (hp : items.Perm itemsB) :
    historicalLowPrice items n = historicalLowPrice itemsB n := by
  by_cases hn : n = ""
  · simp [historicalLowPrice, hn]
  · have hfil : (items.filter (fun item => item.name == n)).Perm
        (itemsB.filter (fun item => item.name == n)) := hp.filter _
    by_cases he : items.filter (fun item => item.name == n) = []
    · have heB : itemsB.filter (fun item => item.name == n) = [] :=
        ((he ▸ hfil).symm).eq_nil
      simp [historicalLowPrice, hn, he, heB]
    · have heB : itemsB.filter (fun item => item.name == n) ≠ [] := by
        intro h
        exact he ((h ▸ hfil).eq_nil)
      rw [historicalLowPrice_eq_fold items n hn he,
        historicalLowPrice_eq_fold itemsB n hn heB]
      congr 1
      exact hfil.foldl_eq'
        (fun x _ y _ z => by
          rw [min_assoc, min_comm (x.unitPrice : WithTop ℚ), ← min_assoc]) ⊤

/-- Witness for C8: swapping two concrete records leaves the historical low
unchanged. -/
theorem historicalLowPrice_perm_invariant_witness :
    historicalLowPrice [⟨"Rice", 2, 1, "oz", "Unknown", 2, 2⟩,
      ⟨"Oats", 3, 1, "oz", "Unknown", 3, 3⟩] "Rice" =
    historicalLowPrice [⟨"Oats", 3, 1, "oz", "Unknown", 3, 3⟩,
      ⟨"Rice", 2, 1, "oz", "Unknown", 2, 2⟩] "Rice" :=
  historicalLowPrice_perm_invariant _ _ "Rice"
    (List.Perm.swap (⟨"Oats", 3, 1, "oz", "Unknown", 3, 3⟩ : PurchaseRecord)
      (⟨"Rice", 2, 1, "oz", "Unknown", 2, 2⟩ : PurchaseRecord) [])

/-- C5 (counterexample): a non-numeric price — `parseFloat` gave `NaN` —
passes the validation guard, because `NaN <= 0` is false in JavaScript, and
`append` is invoked with a record whose price and unit price are `NaN`;
the claim says such a submission raises a validation error and never
reaches `append`. -/
theorem handleSubmit_nonnumeric_counterexample :
    handleSubmit ⟨"Beans", JsNum.nan, JsNum.num 1, "oz", JsNum.nan, ""⟩ 0 =
      SubmitResult.appended ⟨"Beans", JsNum.nan, JsNum.num 1, "oz", "Unknown",
        JsNum.nan, JsNum.nan⟩ := by
  have h1 : jsTrim "Beans" = "Beans" := by decide
  have h2 : jsTrim "" = "" := by decide
  norm_num [handleSubmit, calculateUnitPriceJs, JsNum.leb, jsOrZero, h1, h2]
  exact fun hcontr => absurd hcontr (by decide)

/-- C5 (amended): an empty item name, or a price or quantity that parses to
a non-positive number, fails validation and blocks `append` entirely (no
record value is built); in particular a submission with `quantity = 0` is
rejected and never invokes `append`.  A non-numeric (`NaN`) price or
quantity is not caught by this guard. -/
theorem handleSubmit_validation_amended (form : SubmittedForm) (h : ℚ) :
    (form.name = "" → handleSubmit form h = SubmitResult.validationError) ∧
    (∀ q : ℚ, form.price = JsNum.num q → q ≤ 0 →
      handleSubmit form h = SubmitResult.validationError) ∧
    (∀ q : ℚ, form.quantity = JsNum.num q → q ≤ 0 →
      handleSubmit form h = SubmitResult.validationError) ∧
    (form.quantity = JsNum.num 0 →
      handleSubmit form h = SubmitResult.validationError) := by
  refine ⟨fun hn => ?_, fun q hq hle => ?_, fun q hq hle => ?_, fun hq => ?_⟩
  · simp [handleSubmit, hn]
  · simp [handleSubmit, hq, JsNum.leb, hle]
  · simp [handleSubmit, hq, JsNum.leb, hle]
  · norm_num [handleSubmit, hq, JsNum.leb]

/-- Witness for C5: a zero quantity with otherwise valid fields is
rejected. -/
theorem handleSubmit_validation_amended_witness :
    handleSubmit ⟨"Beans", JsNum.num 5, JsNum.num 0, "oz", JsNum.nan, ""⟩ 2 =
      SubmitResult.validationError :=
  (handleSubmit_validation_amended
    ⟨"Beans", JsNum.num 5, JsNum.num 0, "oz", JsNum.nan, ""⟩ 2).2.2.2 rfl

/-- C7 (code bug): a whitespace-only item name is truthy, so it passes the
validation guard `!form.name`, yet the persisted record stores
`form.name.trim()`, which is empty — violating the claimed invariant that
every persisted record has a non-empty trimmed name.  The other claimed
invariants (store defaulting, recomputed unit price) are visible in the
produced record. -/
theorem handleSubmit_whitespace_name_bug :
    (" " : String) ≠ "" ∧
    handleSubmit ⟨" ", JsNum.num 1, JsNum.num 1, "oz", JsNum.nan, ""⟩ 0 =
      SubmitResult.appended ⟨"", JsNum.num 1, JsNum.num 1, "oz", "Unknown",
        JsNum.num 1, JsNum.num 1⟩ := by
  refine ⟨by decide, ?_⟩
  have hround : round5 (1 : ℚ) = 1 := by
    rw [show ((1 : ℚ)) = 1 / 1 by norm_num,
      round5_eval _ 100000 (by norm_num) (by norm_num)]
    norm_num
  have h1 : jsTrim " " = "" := by decide
  have h2 : jsTrim "" = "" := by decide
  norm_num [handleSubmit, calculateUnitPriceJs, JsNum.leb, jsOrZero, hround, h1, h2]
  exact fun hcontr => absurd hcontr (by decide)

/-- C6 (counterexample): for a matching record with a blank unit and a zero
stored target, and no positive historical low, the code returns the
fallback unit `"oz"` and leaves the suggested-target field empty, while
the claim's rules return the record's own (blank) unit and a suggested
target of `0` (the record's `rockBottomPrice`, rounded). -/
theorem selectItemDefaults_claim_counterexample :
    selectItemDefaults [⟨"Beans", 1, 1, "", "Unknown", 0, 1⟩] "Beans" 0 =
      some ("oz", none) ∧
    claimSelectItemDefaults [⟨"Beans", 1, 1, "", "Unknown", 0, 1⟩] "Beans" 0 =
      some ("", some 0) := by
  constructor
  · simp [selectItemDefaults]
  · have h0 : round4 (0 : ℚ) = 0 := by
      rw [round4_eval _ 0 (by norm_num) (by norm_num)]
      norm_num
    simp [claimSelectItemDefaults, h0]

/-- C6 (amended): for a non-empty name, the first matching record in the
collection (the most recent entry, since the collection is ordered by
timestamp descending) supplies the defaults: its unit, with `"oz"`
substituted when that unit is blank, and a suggested target of
`round4(historicalLow)` when `historicalLow > 0`, else
`round4(rockBottomPrice)` of that record when nonzero, else an empty
suggestion; an empty name or no match yields no defaults. -/
theorem selectItemDefaults_spec_amended (items : List PurchaseRecord)
    (name : String) (h : ℚ) :
    (name = "" → selectItemDefaults items name h = none) ∧
    (items.find? (fun item => item.name == name) = none →
      selectItemDefaults items name h = none) ∧
    (∀ r, name ≠ "" → items.find? (fun item => item.name == name) = some r →
      selectItemDefaults items name h =
        some (if r.unit = "" then "oz" else r.unit,
          if 0 < h then some (round4 h)
          else if r.rockBottomPrice = 0 then none
          else some (round4 r.rockBottomPrice))) := by
  refine ⟨fun hn => ?_, fun hfind => ?_, fun r hn hfind => ?_⟩
  · simp [selectItemDefaults, hn]
  · by_cases hn : name = ""
    · simp [selectItemDefaults, hn]
    · simp [selectItemDefaults, hn, hfind]
  · simp [selectItemDefaults, hn, hfind]

/-- Witness for C6: a matching record with a concrete unit and a positive
historical low produces that unit and the rounded low. -/
theorem selectItemDefaults_spec_amended_witness :
    selectItemDefaults [⟨"Beans", 1, 1, "oz", "Unknown", 2, 1⟩] "Beans" 3 =
      some ("oz", some 3) := by
  have hfind : ([⟨"Beans", 1, 1, "oz", "Unknown", 2, 1⟩] :
      List PurchaseRecord).find? (fun item => item.name == "Beans") =
      some ⟨"Beans", 1, 1, "oz", "Unknown", 2, 1⟩ := by decide
  have H := (selectItemDefaults_spec_amended
    [⟨"Beans", 1, 1, "oz", "Unknown", 2, 1⟩] "Beans" 3).2.2 _ (by decide) hfind
  rw [H]
  have h3 : round4 (3 : ℚ) = 3 := by
    rw [round4_eval _ 30000 (by norm_num) (by norm_num)]
    norm_num
  norm_num [h3]

/-- C9: the table classifies every row against the historical low of the
currently selected item — so changing the selection can change the
displayed status of a record whose name differs from both selections —
and with no selection (`historicalLow = 0`) every listed record whose
nonzero target equals its unit price is shown as `NewRockBottom`. -/
theorem displayedDealStatus_uses_selected_item :
    (∃ (items : List PurchaseRecord) (selA selB : String) (r : PurchaseRecord),
      r ∈ items ∧ r.name ≠ selA ∧ r.name ≠ selB ∧
      displayedDealStatus items selA r ≠ displayedDealStatus items selB r) ∧
    (∀ (items : List PurchaseRecord) (r : PurchaseRecord), r ∈ items →
      r.rockBottomPrice ≠ 0 → r.unitPrice = r.rockBottomPrice →
      displayedDealStatus items "" r = DealStatus.NewRockBottom) := by
  constructor
  · refine ⟨[⟨"Rice", 1, 1, "oz", "Unknown", 1, 1⟩,
      ⟨"Beans", 1, 1, "oz", "Unknown", 1 / 2, 1⟩], "Rice", "Oats",
      ⟨"Beans", 1, 1, "oz", "Unknown", 1 / 2, 1⟩, by simp, by decide, by decide, ?_⟩
    have hA : historicalLowPrice [⟨"Rice", 1, 1, "oz", "Unknown", 1, 1⟩,
        ⟨"Beans", 1, 1, "oz", "Unknown", 1 / 2, 1⟩] "Rice" = 1 := by
      simp [historicalLowPrice, ← WithTop.coe_min, WithTop.untop'_coe,
        -WithTop.coe_ofNat]
    have hB : historicalLowPrice [⟨"Rice", 1, 1, "oz", "Unknown", 1, 1⟩,
        ⟨"Beans", 1, 1, "oz", "Unknown", 1 / 2, 1⟩] "Oats" = 0 := by
      simp [historicalLowPrice]
    simp only [displayedDealStatus, hA, hB]
    have e1 : renderDealStatus 1 ⟨"Beans", 1, 1, "oz", "Unknown", 1 / 2, 1⟩ =
        DealStatus.NewRockBottom := by
      norm_num [renderDealStatus]
    have e2 : renderDealStatus 0 ⟨"Beans", 1, 1, "oz", "Unknown", 1 / 2, 1⟩ =
        DealStatus.BadDeal := by
      norm_num [renderDealStatus]
    rw [e1, e2]
    decide
  · intro items r hmem hrb hur
    have h0 : historicalLowPrice items "" = 0 := by
      simp [historicalLowPrice]
    simp only [displayedDealStatus, h0]
    unfold renderDealStatus
    rw [if_neg hrb, if_pos (Or.inr ⟨rfl, hur⟩)]

/-- Witness for C9: with no selection, a single record whose positive
target ties its unit price displays as the rock bottom. -/
theorem displayedDealStatus_uses_selected_item_witness :
    displayedDealStatus [⟨"Tea", 2, 1, "oz", "Unknown", 2, 2⟩] ""
      ⟨"Tea", 2, 1, "oz", "Unknown", 2, 2⟩ = DealStatus.NewRockBottom :=
  displayedDealStatus_uses_selected_item.2 _ _ (by simp) (by decide) rfl

end PriceBook
